import Mathlib

/-!
# Cloak switchboard (internal/multiplex/switchboard.go)

A shallow embedding of the switchboard: the connection registry (a `sync.Map`
keyed by a `uint32` counter), the two dispatch strategies of `send`,
`pickRandConn`, the teardown path `close`, `closeAll`, and one iteration of
the `deplex` read loop.

Conventions of the embedding.

* A `net.Conn` handle is identified by a natural number; a `net.Conn` variable
  that may hold the nil interface is an `Option Conn`.
* `uint32` values are naturals, arithmetic on them is taken modulo `2 ^ 32`.
* The `sync.Map` is an association list in enumeration order: `Range` visits
  the list from its head.  Theorems about `Range` quantify over every list,
  hence over every enumeration order.
* Calls into collaborators (the valve, the session, the connection) are
  recorded as a list of `Event`s, in program order.
* What a collaborator answers (the result of `conn.Write`, of `UnitRead`, of
  `recvDataFromRemote`, the draw of `rand.Intn`) is an argument of the
  operation.
* A run-time panic is `Except.error`.
-/

namespace Multiplex

/-- A connection handle (a non-nil `net.Conn`). -/
abbrev Conn := Nat

/-- A connection identifier (`uint32`). -/
abbrev ConnId := Nat

/-- The modulus of `uint32` arithmetic. -/
def uint32Size : Nat := 4294967296

/-- The two strategies, `iota` constants of type `switchboardStrategy`. -/
inductive switchboardStrategy
  | FIXED_CONN_MAPPING
  | UNIFORM_SPREAD
  deriving DecidableEq

/-- Go `error` values seen by the switchboard: the package-level
`errBrokenSwitchboard`, or an error of a collaborator carrying its text. -/
inductive GoError
  | errBrokenSwitchboard
  | other (text : String)
  deriving DecidableEq

/-- The `Error()` method. -/
def GoError.Error : GoError → String
  | .errBrokenSwitchboard => "the switchboard is broken"
  | .other text => text

/-- Calls into collaborators, in program order. -/
inductive Event
  | txWait (n : Nat)
  | Write (conn : Conn) (d : List Nat)
  | AddTx (n : Nat)
  | rxWait (n : Nat)
  | AddRx (n : Nat)
  | Close (conn : Conn)
  | recvDataFromRemote (data : List Nat)
  | SetTerminalMsg (msg : String)
  | passiveClose
  | goDeplex (connId : ConnId) (conn : Conn)
  deriving DecidableEq

/-- Modelled from the spec: the owning `Session` (its declaration is not in
the source file).  Only what the switchboard consumes is kept: the closed
flag read by `IsClosed` and the terminal message. -/
structure Session where
  closed : Bool
  terminalMsg : String
  deriving DecidableEq

/-- Modelled from the spec: `session.is_closed() -> bool`. -/
def Session.IsClosed (s : Session) : Bool := s.closed

/-- Modelled from the spec: `session.set_terminal_message(text)`. -/
def Session.SetTerminalMsg (s : Session) (msg : String) : Session :=
  { s with terminalMsg := msg }

/-- Modelled from the spec: `session.request_passive_close()`, the one-shot
teardown trigger; after it `IsClosed` answers true. -/
def Session.passiveClose (s : Session) : Session :=
  { s with closed := true }

/-- The `switchboardConfig` struct.  The embedded `Valve` is a collaborator:
calls of its methods are recorded as events. -/
structure switchboardConfig where
  strategy : switchboardStrategy
  deriving DecidableEq

/-- The `switchboard` struct.  `conns` is the `sync.Map`, `nextConnId` and
`broken` are the two `uint32` fields; `strategy` is the field promoted from
the embedded `*switchboardConfig`. -/
structure switchboard where
  session : Session
  strategy : switchboardStrategy
  conns : List (ConnId × Conn)
  nextConnId : Nat
  broken : Nat
  deriving DecidableEq

/-- `makeSwitchboard`: the zero value of every field but the two passed in. -/
def makeSwitchboard (sesh : Session) (config : switchboardConfig) : switchboard :=
  { session := sesh, strategy := config.strategy, conns := [], nextConnId := 0, broken := 0 }

/-! ## The `sync.Map` primitives -/

/-- `sync.Map.Load`: the stored value and `true`, or nil and `false`. -/
def Load (m : List (ConnId × Conn)) (key : ConnId) : Option Conn × Bool :=
  match m.find? (fun e => e.1 == key) with
  | some e => (some e.2, true)
  | none => (none, false)

/-- `sync.Map.Store`: replaces the value under an existing key, otherwise adds
the entry. -/
def Store (m : List (ConnId × Conn)) (key : ConnId) (value : Conn) : List (ConnId × Conn) :=
  if m.any (fun e => e.1 == key) then
    m.map (fun e => if e.1 == key then (key, value) else e)
  else
    m ++ [(key, value)]

/-- `sync.Map.Delete`. -/
def Delete (m : List (ConnId × Conn)) (key : ConnId) : List (ConnId × Conn) :=
  m.filter (fun e => !(e.1 == key))

/-! ## Registry operations -/

/-- The counting pass of `connsCount` over the entries `Range` visits. -/
def countRange (entries : List (ConnId × Conn)) : Nat :=
  entries.foldl (fun count _ => count + 1) 0

/-- `connsCount`. -/
def switchboard.connsCount (sb : switchboard) : Nat :=
  countRange sb.conns

/-- `addConn`: `atomic.AddUint32(&sb.nextConnId, 1) - 1`, `Store`, and the
`go sb.deplex(connId, conn)` statement.  Returns the identifier it used. -/
def switchboard.addConn (sb : switchboard) (conn : Conn) : switchboard × ConnId × List Event :=
  let next := (sb.nextConnId + 1) % uint32Size
  let connId := (next + uint32Size - 1) % uint32Size
  ({ sb with nextConnId := next, conns := Store sb.conns connId conn },
    connId, [Event.goDeplex connId conn])

/-- `close`: stores 1 in `broken`; when the session is not closed, sets the
terminal message and calls `passiveClose`. -/
def switchboard.close (sb : switchboard) (terminalMsg : String) : switchboard × List Event :=
  let sb1 := { sb with broken := 1 }
  if !sb1.session.IsClosed then
    ({ sb1 with session := (sb1.session.SetTerminalMsg terminalMsg).passiveClose },
      [Event.SetTerminalMsg terminalMsg, Event.passiveClose])
  else
    (sb1, [])

/-- `rand.Intn(n)` of `math/rand`: a value of `[0, n)` for positive `n`.
`seed` stands for the state of the generator; every value of `[0, n)` is the
result for some seed. -/
def randIntn (seed n : Nat) : Nat := seed % n

/-- The callback of the `Range` call in `pickRandConn`, run over the entries
visited; the state is `(id, conn, c)`.  The callback returns `false` (stop)
exactly when `r == c`. -/
def pickRange (r : Nat) : List (ConnId × Conn) → ConnId × Option Conn × Nat →
    ConnId × Option Conn × Nat
  | [], st => st
  | (connId, conn) :: rest, (id, cur, c) =>
    if r == c then (connId, some conn, c)
    else pickRange r rest (id, cur, c + 1)

/-- `pickRandConn` where the counting pass sees `counted` and the later
`Range` pass sees `enumerated` (the source takes no lock between the two). -/
def pickRandConnAt (broken : Nat) (counted enumerated : List (ConnId × Conn)) (seed : Nat) :
    ConnId × Option Conn × Option GoError :=
  let connCount := countRange counted
  if broken == 1 || connCount == 0 then
    (0, none, some GoError.errBrokenSwitchboard)
  else
    let r := randIntn seed connCount
    let st := pickRange r enumerated (0, none, 0)
    (st.1, st.2.1, none)

/-- `pickRandConn` when the registry does not change during the call. -/
def switchboard.pickRandConn (sb : switchboard) (seed : Nat) :
    ConnId × Option Conn × Option GoError :=
  pickRandConnAt sb.broken sb.conns sb.conns seed

/-- The `Range` call of `closeAll` over the entries visited: `conn.Close()`
then `sb.conns.Delete(key)` for each. -/
def closeAllRange : List (ConnId × Conn) → List (ConnId × Conn) →
    List (ConnId × Conn) × List Event
  | [], m => (m, [])
  | (key, conn) :: rest, m =>
    let res := closeAllRange rest (Delete m key)
    (res.1, Event.Close conn :: res.2)

/-- `closeAll`. -/
def switchboard.closeAll (sb : switchboard) : switchboard × List Event :=
  let res := closeAllRange sb.conns sb.conns
  ({ sb with conns := res.1 }, res.2)

/-! ## Dispatch -/

/-- The `uint32` variable the parameter `connId` of `send` points to: the
variable of the caller, or the local `newConnId` of the fallback branch. -/
inductive connIdTarget
  | callerVar
  | newConnId
  deriving DecidableEq

/-- What one call of `send` leaves behind: the switchboard, the results
`(n, err)`, the value of the variable of the caller the pointer argument was
taken from, the target of the parameter `connId` at return, and the calls
made. -/
structure sendResult where
  sb : switchboard
  n : Nat
  err : Option GoError
  callerConnId : ConnId
  connId : connIdTarget
  events : List Event
  deriving DecidableEq

/-- The closure `writeAndRegUsage` of `send`.  `wr` is what `conn.Write(d)`
answers; a call on the nil interface panics. -/
def writeAndRegUsage (sb : switchboard) (wr : Nat × Option GoError) (conn : Option Conn)
    (d : List Nat) : Except String (switchboard × Nat × Option GoError × List Event) :=
  match conn with
  | none => Except.error "invalid memory address or nil pointer dereference"
  | some c =>
    match wr with
    | (n, some err) =>
      let res := sb.close ("failed to write to remote " ++ err.Error)
      Except.ok (res.1, n, some err, Event.Write c d :: res.2)
    | (n, none) =>
      Except.ok (sb, n, none, [Event.Write c d, Event.AddTx n])

/-- `send`.  `callerConnId` is the value of `*connId` at entry.  The source
only reads through the pointer (`sb.conns.Load(*connId)`) and, in the
fallback branch, rebinds the parameter (`connId = &newConnId`); no statement
stores through it. -/
def switchboard.send (sb : switchboard) (wr : Nat × Option GoError) (seed : Nat)
    (data : List Nat) (callerConnId : ConnId) : Except String sendResult :=
  let ev0 := [Event.txWait data.length]
  let connCount := sb.connsCount
  if sb.broken == 1 || connCount == 0 then
    Except.ok ⟨sb, 0, some GoError.errBrokenSwitchboard, callerConnId, connIdTarget.callerVar, ev0⟩
  else if sb.strategy == switchboardStrategy.UNIFORM_SPREAD then
    match sb.pickRandConn seed with
    | (_, _, some _) =>
      Except.ok ⟨sb, 0, some GoError.errBrokenSwitchboard, callerConnId,
        connIdTarget.callerVar, ev0⟩
    | (_, conn, none) =>
      match writeAndRegUsage sb wr conn data with
      | Except.error p => Except.error p
      | Except.ok (sb1, n, err, ev) =>
        Except.ok ⟨sb1, n, err, callerConnId, connIdTarget.callerVar, ev0 ++ ev⟩
  else
    let (connI, ok) := Load sb.conns callerConnId
    -- conn := connI.(net.Conn), before ok is looked at
    match connI with
    | none => Except.error "interface conversion: interface is nil, not net.Conn"
    | some conn =>
      if ok then
        match writeAndRegUsage sb wr (some conn) data with
        | Except.error p => Except.error p
        | Except.ok (sb1, n, err, ev) =>
          Except.ok ⟨sb1, n, err, callerConnId, connIdTarget.callerVar, ev0 ++ ev⟩
      else
        match sb.pickRandConn seed with
        | (_, _, some _) =>
          Except.ok ⟨sb, 0, some GoError.errBrokenSwitchboard, callerConnId,
            connIdTarget.callerVar, ev0⟩
        | (_, conn2, none) =>
          match writeAndRegUsage sb wr conn2 data with
          | Except.error p => Except.error p
          | Except.ok (sb1, n, err, ev) =>
            Except.ok ⟨sb1, n, err, callerConnId, connIdTarget.newConnId, ev0 ++ ev⟩

/-- The connections written to, with the bytes handed to `Write`. -/
def writesOf : List Event → List (Conn × List Nat)
  | [] => []
  | Event.Write c d :: rest => (c, d) :: writesOf rest
  | _ :: rest => writesOf rest

/-- The byte counts handed to `AddTx`. -/
def txRecorded : List Event → List Nat
  | [] => []
  | Event.AddTx n :: rest => n :: txRecorded rest
  | _ :: rest => txRecorded rest

/-! ## Ingestion -/

/-- The size of the read buffer of `deplex`. -/
def deplexBufSize : Nat := 20480

/-- What one iteration of the loop of `deplex` leaves behind; `continues` is
false when the iteration ended in `return`. -/
structure deplexResult where
  sb : switchboard
  events : List Event
  continues : Bool
  deriving DecidableEq

/-- One iteration of the `for` loop of `deplex(connId, conn)`.  `buf` is the
buffer after `UnitRead`, `(n, err)` what `UnitRead` answered, `recvErr` what
`recvDataFromRemote` answers if called.  `buf[:n]` panics when `n` exceeds
the buffer.  The two log statements are left out. -/
def switchboard.deplex (sb : switchboard) (_connId : ConnId) (conn : Conn) (buf : List Nat)
    (n : Nat) (err : Option GoError) (recvErr : Option GoError) : Except String deplexResult :=
  let ev := [Event.rxWait n, Event.AddRx n]
  match err with
  | some _ =>
    let res := sb.close "a connection has dropped unexpectedly"
    Except.ok ⟨res.1, ev ++ Event.Close conn :: res.2, false⟩
  | none =>
    if n ≤ buf.length then
      match recvErr with
      | some _ => Except.ok ⟨sb, ev ++ [Event.recvDataFromRemote (buf.take n)], true⟩
      | none => Except.ok ⟨sb, ev ++ [Event.recvDataFromRemote (buf.take n)], true⟩
    else
      Except.error "slice bounds out of range"

/-! ## Histories -/

/-- The operations a history is made of, with what the collaborators answer
during each. -/
inductive Op
  | addConn (conn : Conn)
  | send (wr : Nat × Option GoError) (seed : Nat) (data : List Nat) (callerConnId : ConnId)
  | pickRandConn (seed : Nat)
  | close (terminalMsg : String)
  | closeAll
  | deplex (connId : ConnId) (conn : Conn) (buf : List Nat) (n : Nat)
      (err recvErr : Option GoError)

/-- The switchboard together with the `deplex` goroutines still in their loop
and the calls made so far. -/
structure World where
  sb : switchboard
  loops : List (ConnId × Conn)
  trace : List Event
  deriving DecidableEq

/-- The world right after `makeSwitchboard`. -/
def World.fresh (sesh : Session) (strategy : switchboardStrategy) : World :=
  ⟨makeSwitchboard sesh ⟨strategy⟩, [], []⟩

/-- One operation.  `none` when the operation panics, or when an iteration is
asked of a `deplex` goroutine that is not running (never started by `addConn`,
or already returned). -/
def step (w : World) : Op → Option World
  | Op.addConn conn =>
    let res := w.sb.addConn conn
    some ⟨res.1, w.loops ++ [(res.2.1, conn)], w.trace ++ res.2.2⟩
  | Op.send wr seed data callerConnId =>
    match w.sb.send wr seed data callerConnId with
    | Except.error _ => none
    | Except.ok r => some ⟨r.sb, w.loops, w.trace ++ r.events⟩
  | Op.pickRandConn _ => some w
  | Op.close terminalMsg =>
    let res := w.sb.close terminalMsg
    some ⟨res.1, w.loops, w.trace ++ res.2⟩
  | Op.closeAll =>
    let res := w.sb.closeAll
    some ⟨res.1, w.loops, w.trace ++ res.2⟩
  | Op.deplex connId conn buf n err recvErr =>
    if (connId, conn) ∈ w.loops then
      match w.sb.deplex connId conn buf n err recvErr with
      | Except.error _ => none
      | Except.ok r =>
        some ⟨r.sb, if r.continues then w.loops else w.loops.erase (connId, conn),
          w.trace ++ r.events⟩
    else
      none

/-- A history, operation after operation. -/
def run : World → List Op → Option World
  | w, [] => some w
  | w, op :: ops =>
    match step w op with
    | none => none
    | some w1 => run w1 ops

/-- The connections a history registers, in order. -/
def registered : List Op → List Conn
  | [] => []
  | Op.addConn conn :: ops => conn :: registered ops
  | _ :: ops => registered ops

/-- The connections whose `deplex` iteration saw `UnitRead` fail, in order. -/
def failedReads : List Op → List Conn
  | [] => []
  | Op.deplex _ conn _ _ (some _) _ :: ops => conn :: failedReads ops
  | _ :: ops => failedReads ops

/-- Whether the history is free of `closeAll`. -/
def noCloseAll : List Op → Bool
  | [] => true
  | Op.closeAll :: _ => false
  | _ :: ops => noCloseAll ops

/-- How often `Close` was called on `conn`. -/
def closeCount (conn : Conn) (trace : List Event) : Nat :=
  trace.count (Event.Close conn)

/-- Whether the `deplex` goroutine reading `conn` is still in its loop. -/
def loopRunning (loops : List (ConnId × Conn)) (conn : Conn) : Bool :=
  loops.any (fun e => e.2 == conn)

/-- The state after registering the connections `cs` one after the other,
with the identifiers handed out, in order. -/
def addConns (sb : switchboard) : List Conn → switchboard × List ConnId
  | [] => (sb, [])
  | conn :: cs =>
    let res := sb.addConn conn
    let rest := addConns res.1 cs
    (rest.1, res.2.1 :: rest.2)

/-- A sequence of calls of `close`, with all the calls made. -/
def closeSeq (sb : switchboard) : List String → switchboard × List Event
  | [] => (sb, [])
  | terminalMsg :: rest =>
    let res := sb.close terminalMsg
    let tl := closeSeq res.1 rest
    (tl.1, res.2 ++ tl.2)

/-- What holds of every world reached by a history without `closeAll` that
registered the pairwise distinct connections `regs`, at most `2 ^ 32` of
them, and saw the reads of the connections `fs` fail. -/
structure HistInv (w : World) (regs fs : List Conn) : Prop where
  snds : w.sb.conns.map Prod.snd = regs
  keys : w.sb.conns.map Prod.fst = List.range regs.length
  next : w.sb.nextConnId = regs.length % uint32Size
  loopsNodup : (w.loops.map Prod.snd).Nodup
  loopsIff : ∀ c, c ∈ w.loops.map Prod.snd ↔ (c ∈ regs ∧ c ∉ fs)
  failedReg : ∀ c, c ∈ fs → c ∈ regs
  closes : ∀ c, closeCount c w.trace = if c ∈ fs then 1 else 0

/-! ## Concrete states used to exercise the theorems -/

/-- A broken switchboard with one connection whose session is already
closed, and its `deplex` goroutine running. -/
def brokenWorld : World :=
  ⟨⟨⟨true, "gone"⟩, switchboardStrategy.UNIFORM_SPREAD, [(0, 10)], 1, 1⟩, [(0, 10)], []⟩

/-- A history that goes through each of the six operations. -/
def sixOps : List Op :=
  [Op.addConn 11, Op.send (2, none) 5 [7, 8] 0, Op.pickRandConn 3, Op.close "again",
    Op.deplex 1 11 [0, 0, 0] 2 none none, Op.closeAll]

/-- The world `sixOps` leads to from `brokenWorld`. -/
def brokenWorldAfter : World :=
  ⟨⟨⟨true, "gone"⟩, switchboardStrategy.UNIFORM_SPREAD, [], 2, 1⟩, [(0, 10), (1, 11)],
    [Event.goDeplex 1 11, Event.txWait 2, Event.rxWait 2, Event.AddRx 2,
      Event.recvDataFromRemote [0, 0], Event.Close 10, Event.Close 11]⟩

/-- Two registrations, a send, and a read failure on the first connection. -/
def dropHistory : List Op :=
  [Op.addConn 10, Op.addConn 11, Op.send (3, none) 1 [7, 8, 9] 0,
    Op.deplex 0 10 [0, 0] 0 (some (GoError.other "EOF")) none]

/-- The world `dropHistory` leads to from a fresh UNIFORM_SPREAD switchboard. -/
def dropWorld : World :=
  ⟨⟨⟨true, "a connection has dropped unexpectedly"⟩, switchboardStrategy.UNIFORM_SPREAD,
      [(0, 10), (1, 11)], 2, 1⟩,
    [(1, 11)],
    [Event.goDeplex 0 10, Event.goDeplex 1 11, Event.txWait 3, Event.Write 11 [7, 8, 9],
      Event.AddTx 3, Event.rxWait 0, Event.AddRx 0, Event.Close 10,
      Event.SetTerminalMsg "a connection has dropped unexpectedly", Event.passiveClose]⟩

/-- A healthy switchboard under FIXED_CONN_MAPPING with three connections. -/
def fixedSb : switchboard :=
  ⟨⟨false, ""⟩, switchboardStrategy.FIXED_CONN_MAPPING, [(0, 10), (1, 11), (2, 12)], 3, 0⟩

/-- A healthy switchboard under UNIFORM_SPREAD with three connections. -/
def uniformSb : switchboard :=
  ⟨⟨false, ""⟩, switchboardStrategy.UNIFORM_SPREAD, [(0, 10), (1, 11), (2, 12)], 3, 0⟩

/-- A switchboard whose session was closed before any failure. -/
def closedSessionSb : switchboard :=
  ⟨⟨true, "closed by the user"⟩, switchboardStrategy.UNIFORM_SPREAD, [(0, 10)], 1, 0⟩

/-! ## Auxiliary facts -/

theorem countRange_eq_length (entries : List (ConnId × Conn)) :
    countRange entries = entries.length := by
  have h : ∀ (l : List (ConnId × Conn)) (k : Nat),
      l.foldl (fun count _ => count + 1) k = k + l.length := by
    intro l
    induction l with
    | nil => intro k; simp
    | cons a t ih => intro k; simp [ih]; omega
  simpa [countRange] using h entries 0

theorem Load_of_key (m : List (ConnId × Conn)) (key : ConnId)
    (h : key ∈ m.map Prod.fst) :
    ∃ conn, Load m key = (some conn, true) ∧ (key, conn) ∈ m := by
  induction m with
  | nil => simp at h
  | cons a t ih =>
    by_cases ha : a.1 = key
    · refine ⟨a.2, ?_, ?_⟩
      · simp [Load, List.find?, ha]
      · rw [← ha]; simp
    · have ht : key ∈ t.map Prod.fst := by
        simp only [List.map_cons, List.mem_cons] at h
        rcases h with h | h
        · exact absurd h.symm ha
        · exact h
      obtain ⟨conn, h1, h2⟩ := ih ht
      refine ⟨conn, ?_, List.mem_cons_of_mem _ h2⟩
      have hb : (a.1 == key) = false := by simpa using ha
      simpa [Load, List.find?, hb] using h1

theorem Load_of_not_key (m : List (ConnId × Conn)) (key : ConnId)
    (h : key ∉ m.map Prod.fst) : Load m key = (none, false) := by
  induction m with
  | nil => simp [Load]
  | cons a t ih =>
    simp only [List.map_cons, List.mem_cons, not_or] at h
    have hb : (a.1 == key) = false := by
      simpa using fun hh => h.1 hh.symm
    have := ih h.2
    simpa [Load, List.find?, hb] using this

theorem connsCount_eq_length (sb : switchboard) : sb.connsCount = sb.conns.length :=
  countRange_eq_length sb.conns

theorem close_of_open (sb : switchboard) (msg : String) (h : sb.session.IsClosed = false) :
    sb.close msg =
      ({ sb with broken := 1, session := ⟨true, msg⟩ },
        [Event.SetTerminalMsg msg, Event.passiveClose]) := by
  simp only [Session.IsClosed] at h
  simp [switchboard.close, h, Session.IsClosed, Session.SetTerminalMsg, Session.passiveClose]

theorem close_of_closed (sb : switchboard) (msg : String) (h : sb.session.IsClosed = true) :
    sb.close msg = ({ sb with broken := 1 }, []) := by
  simp only [Session.IsClosed] at h
  simp [switchboard.close, h, Session.IsClosed]

theorem close_broken (sb : switchboard) (msg : String) : (sb.close msg).1.broken = 1 := by
  cases h : sb.session.IsClosed
  · rw [close_of_open sb msg h]
  · rw [close_of_closed sb msg h]

theorem close_conns (sb : switchboard) (msg : String) : (sb.close msg).1.conns = sb.conns := by
  cases h : sb.session.IsClosed
  · rw [close_of_open sb msg h]
  · rw [close_of_closed sb msg h]

theorem close_nextConnId (sb : switchboard) (msg : String) :
    (sb.close msg).1.nextConnId = sb.nextConnId := by
  cases h : sb.session.IsClosed
  · rw [close_of_open sb msg h]
  · rw [close_of_closed sb msg h]

theorem close_events_cases (sb : switchboard) (msg : String) :
    (sb.close msg).2 = [] ∨ (sb.close msg).2 = [Event.SetTerminalMsg msg, Event.passiveClose] := by
  cases h : sb.session.IsClosed
  · rw [close_of_open sb msg h]; exact Or.inr rfl
  · rw [close_of_closed sb msg h]; exact Or.inl rfl

theorem pickRange_hit (r : Nat) (l : List (ConnId × Conn)) :
    ∀ (id : ConnId) (cur : Option Conn) (c : Nat) (e : ConnId × Conn),
      c ≤ r → l[r - c]? = some e → pickRange r l (id, cur, c) = (e.1, some e.2, r) := by
  induction l with
  | nil => intro id cur c e _ h; simp at h
  | cons a t ih =>
    intro id cur c e hc h
    obtain ⟨k, v⟩ := a
    by_cases hrc : r = c
    · subst hrc
      simp at h
      subst h
      simp [pickRange]
    · have hlt : c + 1 ≤ r := by omega
      have hidx : r - c = (r - (c + 1)) + 1 := by omega
      rw [hidx, List.getElem?_cons_succ] at h
      have hb : (r == c) = false := by simpa using hrc
      simp only [pickRange, hb]
      exact ih id cur (c + 1) e hlt h

theorem pickRange_miss (r : Nat) (l : List (ConnId × Conn)) :
    ∀ (id : ConnId) (cur : Option Conn) (c : Nat),
      c + l.length ≤ r → pickRange r l (id, cur, c) = (id, cur, c + l.length) := by
  induction l with
  | nil => intro id cur c _; simp [pickRange]
  | cons a t ih =>
    intro id cur c h
    obtain ⟨k, v⟩ := a
    simp only [List.length_cons] at h
    have hb : (r == c) = false := by
      have : r ≠ c := by omega
      simpa using this
    simp only [pickRange, hb]
    rw [ih id cur (c + 1) (by omega)]
    rw [List.length_cons, show c + 1 + t.length = c + (t.length + 1) by omega]
    simp

theorem pickRandConnAt_active (broken : Nat) (counted enumerated : List (ConnId × Conn))
    (seed : Nat) (hb : broken ≠ 1) (hne : counted ≠ []) :
    pickRandConnAt broken counted enumerated seed =
      ((pickRange (randIntn seed counted.length) enumerated (0, none, 0)).1,
        (pickRange (randIntn seed counted.length) enumerated (0, none, 0)).2.1, none) := by
  have hlen : counted.length ≠ 0 := by
    intro h; exact hne (List.length_eq_zero.mp h)
  have hb1 : (broken == 1) = false := by simpa using hb
  have hb2 : (counted.length == 0) = false := by simpa using hlen
  simp [pickRandConnAt, countRange_eq_length, hb1, hb2]

theorem pickRandConnAt_inactive (broken : Nat) (counted enumerated : List (ConnId × Conn))
    (seed : Nat) (h : broken = 1 ∨ counted = []) :
    pickRandConnAt broken counted enumerated seed =
      (0, none, some GoError.errBrokenSwitchboard) := by
  rcases h with h | h
  · simp [pickRandConnAt, h]
  · simp [pickRandConnAt, h, countRange]

theorem randIntn_lt (seed n : Nat) (h : n ≠ 0) : randIntn seed n < n :=
  Nat.mod_lt _ (Nat.pos_of_ne_zero h)

theorem pickRandConn_active (sb : switchboard) (seed : Nat) (hb : sb.broken ≠ 1)
    (hne : sb.conns ≠ []) :
    ∃ e, sb.conns[randIntn seed sb.conns.length]? = some e ∧ e ∈ sb.conns ∧
      sb.pickRandConn seed = (e.1, some e.2, none) := by
  have hlen : sb.conns.length ≠ 0 := by
    intro h; exact hne (List.length_eq_zero.mp h)
  have hlt := randIntn_lt seed sb.conns.length hlen
  have hget : sb.conns[randIntn seed sb.conns.length]? =
      some (sb.conns[randIntn seed sb.conns.length]) := List.getElem?_eq_getElem hlt
  refine ⟨sb.conns[randIntn seed sb.conns.length], hget, List.getElem_mem _, ?_⟩
  unfold switchboard.pickRandConn
  rw [pickRandConnAt_active sb.broken sb.conns sb.conns seed hb hne]
  rw [pickRange_hit (randIntn seed sb.conns.length) sb.conns 0 none 0
    (sb.conns[randIntn seed sb.conns.length]) (Nat.zero_le _)
    (by rw [Nat.sub_zero]; exact hget)]

theorem send_of_broken (sb : switchboard) (wr : Nat × Option GoError) (seed : Nat)
    (data : List Nat) (callerConnId : ConnId) (h : sb.broken = 1 ∨ sb.conns = []) :
    sb.send wr seed data callerConnId =
      Except.ok ⟨sb, 0, some GoError.errBrokenSwitchboard, callerConnId,
        connIdTarget.callerVar, [Event.txWait data.length]⟩ := by
  rcases h with h | h
  · simp [switchboard.send, h]
  · simp [switchboard.send, h, switchboard.connsCount, countRange]

theorem send_guard_false (sb : switchboard) (hb : sb.broken ≠ 1) (hne : sb.conns ≠ []) :
    (sb.broken == 1 || sb.connsCount == 0) = false := by
  have hlen : sb.conns.length ≠ 0 := by
    intro h; exact hne (List.length_eq_zero.mp h)
  have hb1 : (sb.broken == 1) = false := by simpa using hb
  have hb2 : (sb.conns.length == 0) = false := by simpa using hlen
  simp [connsCount_eq_length, hb1, hb2]

theorem send_fixed_key (sb : switchboard) (wr : Nat × Option GoError) (seed : Nat)
    (data : List Nat) (callerConnId : ConnId) (conn : Conn)
    (hs : sb.strategy = switchboardStrategy.FIXED_CONN_MAPPING)
    (hb : sb.broken ≠ 1) (hne : sb.conns ≠ [])
    (hl : Load sb.conns callerConnId = (some conn, true)) :
    sb.send wr seed data callerConnId =
      match writeAndRegUsage sb wr (some conn) data with
      | Except.error p => Except.error p
      | Except.ok (sb1, n, err, ev) =>
        Except.ok ⟨sb1, n, err, callerConnId, connIdTarget.callerVar,
          [Event.txWait data.length] ++ ev⟩ := by
  simp [switchboard.send, send_guard_false sb hb hne, hs, hl]

theorem send_fixed_stale (sb : switchboard) (wr : Nat × Option GoError) (seed : Nat)
    (data : List Nat) (callerConnId : ConnId)
    (hs : sb.strategy = switchboardStrategy.FIXED_CONN_MAPPING)
    (hb : sb.broken ≠ 1) (hne : sb.conns ≠ [])
    (hk : callerConnId ∉ sb.conns.map Prod.fst) :
    sb.send wr seed data callerConnId =
      Except.error "interface conversion: interface is nil, not net.Conn" := by
  simp [switchboard.send, send_guard_false sb hb hne, hs, Load_of_not_key sb.conns _ hk]

theorem send_uniform (sb : switchboard) (wr : Nat × Option GoError) (seed : Nat)
    (data : List Nat) (callerConnId : ConnId) (e : ConnId × Conn)
    (hs : sb.strategy = switchboardStrategy.UNIFORM_SPREAD)
    (hb : sb.broken ≠ 1) (hne : sb.conns ≠ [])
    (hp : sb.pickRandConn seed = (e.1, some e.2, none)) :
    sb.send wr seed data callerConnId =
      match writeAndRegUsage sb wr (some e.2) data with
      | Except.error p => Except.error p
      | Except.ok (sb1, n, err, ev) =>
        Except.ok ⟨sb1, n, err, callerConnId, connIdTarget.callerVar,
          [Event.txWait data.length] ++ ev⟩ := by
  simp [switchboard.send, send_guard_false sb hb hne, hs, hp]

theorem writeAndRegUsage_fail (sb : switchboard) (n : Nat) (e : GoError) (c : Conn)
    (d : List Nat) :
    writeAndRegUsage sb (n, some e) (some c) d =
      Except.ok ((sb.close ("failed to write to remote " ++ e.Error)).1, n, some e,
        Event.Write c d :: (sb.close ("failed to write to remote " ++ e.Error)).2) := rfl

theorem writeAndRegUsage_success (sb : switchboard) (n : Nat) (c : Conn) (d : List Nat) :
    writeAndRegUsage sb (n, none) (some c) d =
      Except.ok (sb, n, none, [Event.Write c d, Event.AddTx n]) := rfl

theorem pickRandConn_at (sb : switchboard) (r : Nat) (e : ConnId × Conn) (hb : sb.broken ≠ 1)
    (h : sb.conns[r]? = some e) : sb.pickRandConn r = (e.1, some e.2, none) := by
  obtain ⟨hlt, _⟩ := List.getElem?_eq_some.mp h
  have hne : sb.conns ≠ [] := by
    intro h0; rw [h0] at hlt; simp at hlt
  obtain ⟨e2, h1, _, h3⟩ := pickRandConn_active sb r hb hne
  have hr : randIntn r sb.conns.length = r := Nat.mod_eq_of_lt hlt
  rw [hr, h] at h1
  cases h1
  exact h3

theorem pickRandConn_seed (sb : switchboard) (seed : Nat) (hb : sb.broken ≠ 1)
    (hne : sb.conns ≠ []) :
    sb.pickRandConn seed = sb.pickRandConn (randIntn seed sb.connsCount) := by
  obtain ⟨e, h1, _, h3⟩ := pickRandConn_active sb seed hb hne
  rw [h3, connsCount_eq_length, pickRandConn_at sb _ e hb h1]

theorem deplex_err (sb : switchboard) (connId : ConnId) (conn : Conn) (buf : List Nat)
    (n : Nat) (e : GoError) (recvErr : Option GoError) :
    sb.deplex connId conn buf n (some e) recvErr =
      Except.ok ⟨(sb.close "a connection has dropped unexpectedly").1,
        [Event.rxWait n, Event.AddRx n, Event.Close conn] ++
          (sb.close "a connection has dropped unexpectedly").2, false⟩ := rfl

theorem deplex_ok (sb : switchboard) (connId : ConnId) (conn : Conn) (buf : List Nat)
    (n : Nat) (recvErr : Option GoError) (hn : n ≤ buf.length) :
    sb.deplex connId conn buf n none recvErr =
      Except.ok ⟨sb, [Event.rxWait n, Event.AddRx n, Event.recvDataFromRemote (buf.take n)],
        true⟩ := by
  cases recvErr <;> simp [switchboard.deplex, hn]

theorem step_broken (w w1 : World) (op : Op) (hb : w.sb.broken = 1)
    (h : step w op = some w1) : w1.sb.broken = 1 := by
  cases op with
  | addConn conn =>
    simp only [step, Option.some.injEq] at h
    rw [← h]; exact hb
  | send wr seed data callerConnId =>
    simp only [step, send_of_broken w.sb wr seed data callerConnId (Or.inl hb),
      Option.some.injEq] at h
    rw [← h]; exact hb
  | pickRandConn seed =>
    simp only [step, Option.some.injEq] at h
    rw [← h]; exact hb
  | close terminalMsg =>
    simp only [step, Option.some.injEq] at h
    rw [← h]; exact close_broken _ _
  | closeAll =>
    simp only [step, Option.some.injEq] at h
    rw [← h]; exact hb
  | deplex connId conn buf n err recvErr =>
    simp only [step] at h
    split at h
    · cases err with
      | some e =>
        rw [deplex_err] at h
        simp only [Option.some.injEq] at h
        rw [← h]; exact close_broken _ _
      | none =>
        by_cases hn : n ≤ buf.length
        · rw [deplex_ok _ _ _ _ _ _ hn] at h
          simp only [Option.some.injEq] at h
          rw [← h]; exact hb
        · simp [switchboard.deplex, hn] at h
    · cases h

theorem run_broken (ops : List Op) : ∀ (w w1 : World), w.sb.broken = 1 →
    run w ops = some w1 → w1.sb.broken = 1 := by
  induction ops with
  | nil =>
    intro w w1 hb h
    simp only [run, Option.some.injEq] at h
    rw [← h]; exact hb
  | cons op ops ih =>
    intro w w1 hb h
    simp only [run] at h
    cases hs : step w op with
    | none => rw [hs] at h; cases h
    | some w2 =>
      rw [hs] at h
      exact ih w2 w1 (step_broken w w2 op hb hs) h

theorem writesOf_close (sb : switchboard) (msg : String) : writesOf (sb.close msg).2 = [] := by
  rcases close_events_cases sb msg with h | h <;> rw [h] <;> rfl

theorem txRecorded_close (sb : switchboard) (msg : String) :
    txRecorded (sb.close msg).2 = [] := by
  rcases close_events_cases sb msg with h | h <;> rw [h] <;> rfl

theorem closeSeq_of_closed (msgs : List String) : ∀ (sb : switchboard),
    sb.session.IsClosed = true → sb.broken = 1 → closeSeq sb msgs = (sb, []) := by
  induction msgs with
  | nil => intro sb _ _; rfl
  | cons m rest ih =>
    intro sb hc hb
    have h1 : sb.close m = (sb, []) := by
      rw [close_of_closed sb m hc, ← hb]
    simp only [closeSeq, h1, ih sb hc hb, List.append_nil]

theorem Store_of_not_key (m : List (ConnId × Conn)) (key : ConnId) (value : Conn)
    (h : key ∉ m.map Prod.fst) : Store m key value = m ++ [(key, value)] := by
  have hany : (m.any (fun e => e.1 == key)) = false := by
    rw [Bool.eq_false_iff]
    intro hc
    rw [List.any_eq_true] at hc
    obtain ⟨e, he, hek⟩ := hc
    apply h
    have : e.1 = key := by simpa using hek
    rw [← this]
    exact List.mem_map_of_mem _ he
  simp [Store, hany]

theorem addConn_of_lt (sb : switchboard) (conn : Conn) (h : sb.nextConnId < uint32Size) :
    sb.addConn conn =
      ({ sb with nextConnId := (sb.nextConnId + 1) % uint32Size,
                 conns := Store sb.conns sb.nextConnId conn },
        sb.nextConnId, [Event.goDeplex sb.nextConnId conn]) := by
  have hid : ((sb.nextConnId + 1) % uint32Size + uint32Size - 1) % uint32Size =
      sb.nextConnId := by
    simp only [uint32Size] at h ⊢
    omega
  simp only [switchboard.addConn, hid]

theorem addConns_ids (cs : List Conn) : ∀ (sb : switchboard), sb.nextConnId < uint32Size →
    (addConns sb cs).2 =
      (List.range cs.length).map (fun i => (sb.nextConnId + i) % uint32Size) := by
  induction cs with
  | nil => intro sb _; rfl
  | cons c cs ih =>
    intro sb h
    have hlt : (sb.nextConnId + 1) % uint32Size < uint32Size :=
      Nat.mod_lt _ (by decide)
    have hrest := ih (sb.addConn c).1 (by rw [addConn_of_lt sb c h]; exact hlt)
    simp only [addConns, hrest, List.length_cons, List.range_succ_eq_map, List.map_cons,
      List.map_map]
    rw [addConn_of_lt sb c h]
    refine congrArg₂ List.cons ?_ ?_
    · simp only [Nat.add_zero]
      exact (Nat.mod_eq_of_lt h).symm
    · apply List.map_congr_left
      intro i _
      simp only [Function.comp, uint32Size]
      omega

theorem addConn_fresh_key (sb : switchboard) (conn : Conn) (k : Nat)
    (hk : sb.nextConnId = k % uint32Size) (hkeys : sb.conns.map Prod.fst = List.range k)
    (hlt : k < uint32Size) :
    sb.addConn conn =
      ({ sb with nextConnId := (k + 1) % uint32Size, conns := sb.conns ++ [(k, conn)] },
        k, [Event.goDeplex k conn]) := by
  have hk1 : sb.nextConnId = k := by rw [hk]; exact Nat.mod_eq_of_lt hlt
  have hnot : k ∉ sb.conns.map Prod.fst := by rw [hkeys]; simp
  rw [addConn_of_lt sb conn (by rw [hk1]; exact hlt), hk1, Store_of_not_key _ _ _ hnot]

theorem addConns_no_wrap (cs : List Conn) : ∀ (sb : switchboard) (k : Nat),
    sb.nextConnId = k % uint32Size → sb.conns.map Prod.fst = List.range k →
    k + cs.length ≤ uint32Size →
    (addConns sb cs).2 = List.range' k cs.length ∧
    (addConns sb cs).1.conns = sb.conns ++ (List.range' k cs.length).zip cs ∧
    (addConns sb cs).1.nextConnId = (k + cs.length) % uint32Size := by
  induction cs with
  | nil =>
    intro sb k hk _ _
    exact ⟨rfl, by simp [addConns], by simpa [addConns] using hk⟩
  | cons c cs ih =>
    intro sb k hk hkeys hle
    simp only [List.length_cons] at hle
    have hlt : k < uint32Size := by omega
    have hadd := addConn_fresh_key sb c k hk hkeys hlt
    have hrec := ih (sb.addConn c).1 (k + 1) (by rw [hadd])
      (by rw [hadd]; simp [hkeys, List.range_succ]) (by omega)
    obtain ⟨h1, h2, h3⟩ := hrec
    refine ⟨?_, ?_, ?_⟩
    · simp only [addConns, h1, List.length_cons, List.range'_succ]
      rw [hadd]
    · simp only [addConns, h2, List.length_cons, List.range'_succ, List.zip_cons_cons]
      rw [hadd]
      simp
    · simp only [addConns, h3, List.length_cons]
      congr 1
      omega

theorem closeCount_append (c : Conn) (t1 t2 : List Event) :
    closeCount c (t1 ++ t2) = closeCount c t1 + closeCount c t2 := by
  simp [closeCount]

theorem closeCount_close (sb : switchboard) (msg : String) (c : Conn) :
    closeCount c (sb.close msg).2 = 0 := by
  rcases close_events_cases sb msg with h | h <;> rw [h] <;> simp [closeCount, List.count_cons]

theorem writeAndRegUsage_frame (sb sb1 : switchboard) (wr : Nat × Option GoError)
    (conn : Option Conn) (d : List Nat) (n : Nat) (err : Option GoError) (ev : List Event)
    (h : writeAndRegUsage sb wr conn d = Except.ok (sb1, n, err, ev)) :
    sb1.conns = sb.conns ∧ sb1.nextConnId = sb.nextConnId ∧ ∀ c, closeCount c ev = 0 := by
  cases conn with
  | none => simp [writeAndRegUsage] at h
  | some cn =>
    obtain ⟨k, _ | e⟩ := wr
    · rw [writeAndRegUsage_success] at h
      simp only [Except.ok.injEq, Prod.mk.injEq] at h
      obtain ⟨h1, _, _, h4⟩ := h
      subst h1; subst h4
      exact ⟨rfl, rfl, fun c => by simp [closeCount, List.count_cons]⟩
    · rw [writeAndRegUsage_fail] at h
      simp only [Except.ok.injEq, Prod.mk.injEq] at h
      obtain ⟨h1, _, _, h4⟩ := h
      subst h1; subst h4
      refine ⟨close_conns _ _, close_nextConnId _ _, fun c => ?_⟩
      have := closeCount_close sb ("failed to write to remote " ++ e.Error) c
      simp only [closeCount] at this
      simp [closeCount, List.count_cons, this]

theorem send_frame (sb : switchboard) (wr : Nat × Option GoError) (seed : Nat)
    (data : List Nat) (callerConnId : ConnId) (r : sendResult)
    (h : sb.send wr seed data callerConnId = Except.ok r) :
    r.sb.conns = sb.conns ∧ r.sb.nextConnId = sb.nextConnId ∧
      ∀ c, closeCount c r.events = 0 := by
  have hbase : ∀ c, closeCount c [Event.txWait data.length] = 0 := by
    intro c; simp [closeCount, List.count_cons]
  unfold switchboard.send at h
  simp only at h
  split at h
  · simp only [Except.ok.injEq] at h
    subst h
    exact ⟨rfl, rfl, hbase⟩
  · split at h
    · split at h
      · simp only [Except.ok.injEq] at h
        subst h
        exact ⟨rfl, rfl, hbase⟩
      · split at h
        · cases h
        · rename_i hw
          simp only [Except.ok.injEq] at h
          subst h
          obtain ⟨h1, h2, h3⟩ := writeAndRegUsage_frame _ _ _ _ _ _ _ _ hw
          refine ⟨h1, h2, fun c => ?_⟩
          rw [closeCount_append, hbase, h3]
    · split at h
      · cases h
      · split at h
        · split at h
          · cases h
          · rename_i hw
            simp only [Except.ok.injEq] at h
            subst h
            obtain ⟨h1, h2, h3⟩ := writeAndRegUsage_frame _ _ _ _ _ _ _ _ hw
            refine ⟨h1, h2, fun c => ?_⟩
            rw [closeCount_append, hbase, h3]
        · split at h
          · simp only [Except.ok.injEq] at h
            subst h
            exact ⟨rfl, rfl, hbase⟩
          · split at h
            · cases h
            · rename_i hw
              simp only [Except.ok.injEq] at h
              subst h
              obtain ⟨h1, h2, h3⟩ := writeAndRegUsage_frame _ _ _ _ _ _ _ _ hw
              refine ⟨h1, h2, fun c => ?_⟩
              rw [closeCount_append, hbase, h3]

theorem closeAllRange_mem (l : List (ConnId × Conn)) : ∀ (m : List (ConnId × Conn))
    (e : ConnId × Conn), e ∈ (closeAllRange l m).1 → e ∈ m ∧ e.1 ∉ l.map Prod.fst := by
  induction l with
  | nil => intro m e h; exact ⟨h, by simp⟩
  | cons a t ih =>
    intro m e h
    obtain ⟨key, conn⟩ := a
    simp only [closeAllRange] at h
    obtain ⟨h1, h2⟩ := ih (Delete m key) e h
    simp only [Delete, List.mem_filter, Bool.not_eq_true', beq_eq_false_iff_ne, ne_eq] at h1
    refine ⟨h1.1, ?_⟩
    simp only [List.map_cons, List.mem_cons, not_or]
    exact ⟨h1.2, h2⟩

theorem closeAllRange_events (l : List (ConnId × Conn)) : ∀ (m : List (ConnId × Conn)),
    (closeAllRange l m).2 = l.map (fun e => Event.Close e.2) := by
  induction l with
  | nil => intro m; rfl
  | cons a t ih =>
    intro m
    obtain ⟨key, conn⟩ := a
    simp only [closeAllRange, ih, List.map_cons]

theorem closeAll_conns (sb : switchboard) : (sb.closeAll).1.conns = [] := by
  rw [List.eq_nil_iff_forall_not_mem]
  intro e he
  obtain ⟨h1, h2⟩ := closeAllRange_mem sb.conns sb.conns e he
  exact h2 (List.mem_map_of_mem _ h1)

theorem closeCount_closeAll (sb : switchboard) (c : Conn) :
    closeCount c (sb.closeAll).2 = (sb.conns.map Prod.snd).count c := by
  have h : ∀ (l : List (ConnId × Conn)),
      (l.map (fun e => Event.Close e.2)).count (Event.Close c) =
        (l.map Prod.snd).count c := by
    intro l
    induction l with
    | nil => rfl
    | cons a t ih => simp [List.count_cons, ih]
  simp only [closeCount, switchboard.closeAll, closeAllRange_events]
  exact h sb.conns

theorem mem_erase_snd (loops : List (ConnId × Conn)) (connId : ConnId) (conn c : Conn)
    (hnd : (loops.map Prod.snd).Nodup) (hmem : (connId, conn) ∈ loops) :
    c ∈ (loops.erase (connId, conn)).map Prod.snd ↔ (c ∈ loops.map Prod.snd ∧ c ≠ conn) := by
  induction loops with
  | nil => cases hmem
  | cons a t ih =>
    simp only [List.map_cons, List.nodup_cons] at hnd
    by_cases ha : a = (connId, conn)
    · subst ha
      simp only [List.erase_cons_head, List.map_cons, List.mem_cons]
      constructor
      · intro h
        refine ⟨Or.inr h, ?_⟩
        intro hc
        exact hnd.1 (hc ▸ h)
      · rintro ⟨h | h, hne⟩
        · exact absurd h hne
        · exact h
    · have hmt : (connId, conn) ∈ t := by
        rcases List.mem_cons.mp hmem with h | h
        · exact absurd h.symm ha
        · exact h
      have hne : a.2 ≠ conn := by
        intro h
        apply hnd.1
        rw [h]
        exact List.mem_map_of_mem Prod.snd hmt
      rw [List.erase_cons_tail (by simpa using ha)]
      simp only [List.map_cons, List.mem_cons, ih hnd.2 hmt]
      constructor
      · rintro (h | ⟨h1, h2⟩)
        · exact ⟨Or.inl h, h ▸ hne⟩
        · exact ⟨Or.inr h1, h2⟩
      · rintro ⟨h | h, h2⟩
        · exact Or.inl h
        · exact Or.inr ⟨h, h2⟩

theorem HistInv_fresh (sesh : Session) (strategy : switchboardStrategy) :
    HistInv (World.fresh sesh strategy) [] [] :=
  ⟨rfl, rfl, rfl, List.nodup_nil, (by intro c; simp [World.fresh]),
    (by intro c h; cases h), (by intro c; simp [World.fresh, closeCount])⟩

theorem HistInv_frame (w w1 : World) (regs fs : List Conn) (hinv : HistInv w regs fs)
    (hc : w1.sb.conns = w.sb.conns) (hn : w1.sb.nextConnId = w.sb.nextConnId)
    (hl : w1.loops = w.loops) (ht : ∀ c, closeCount c w1.trace = closeCount c w.trace) :
    HistInv w1 regs fs :=
  ⟨(by rw [hc]; exact hinv.snds), (by rw [hc]; exact hinv.keys),
    (by rw [hn]; exact hinv.next), (by rw [hl]; exact hinv.loopsNodup),
    (by rw [hl]; exact hinv.loopsIff), hinv.failedReg,
    (by intro c; rw [ht]; exact hinv.closes c)⟩

theorem registered_cons (op : Op) (ops : List Op) :
    registered (op :: ops) = registered [op] ++ registered ops := by
  cases op <;> simp [registered]

theorem failedReads_cons (op : Op) (ops : List Op) :
    failedReads (op :: ops) = failedReads [op] ++ failedReads ops := by
  cases op with
  | deplex connId conn buf n err recvErr => cases err <;> simp [failedReads]
  | _ => simp [failedReads]

theorem noCloseAll_cons (op : Op) (ops : List Op) (h : noCloseAll (op :: ops) = true) :
    noCloseAll [op] = true ∧ noCloseAll ops = true := by
  cases op <;> simp_all [noCloseAll]

theorem step_HistInv (w w1 : World) (op : Op) (regs fs : List Conn)
    (hinv : HistInv w regs fs) (hstep : step w op = some w1)
    (hno : noCloseAll [op] = true) (hd : (regs ++ registered [op]).Nodup)
    (hlen : (regs ++ registered [op]).length ≤ uint32Size) :
    HistInv w1 (regs ++ registered [op]) (fs ++ failedReads [op]) := by
  cases op with
  | addConn conn =>
    simp only [registered, failedReads, List.append_nil] at hd hlen ⊢
    simp only [List.length_append, List.length_singleton] at hlen
    have hlt : regs.length < uint32Size := by omega
    have hnotin : conn ∉ regs := by
      intro hm
      have := List.nodup_append.mp hd
      exact this.2.2 hm (List.mem_singleton_self conn)
    have hadd := addConn_fresh_key w.sb conn regs.length hinv.next hinv.keys hlt
    simp only [step, hadd, Option.some.injEq] at hstep
    subst hstep
    refine ⟨?_, ?_, ?_, ?_, ?_, ?_, ?_⟩
    · simp [hinv.snds]
    · simp [hinv.keys, List.range_succ]
    · simp
    · simp only [List.map_append, List.map_cons, List.map_nil]
      rw [List.nodup_append]
      refine ⟨hinv.loopsNodup, List.nodup_singleton _, ?_⟩
      intro a ha hb
      rw [List.mem_singleton] at hb
      subst hb
      exact hnotin ((hinv.loopsIff a).mp ha).1
    · intro c
      simp only [List.map_append, List.map_cons, List.map_nil, List.mem_append,
        List.mem_singleton, hinv.loopsIff c]
      constructor
      · rintro (⟨h1, h2⟩ | h)
        · exact ⟨Or.inl h1, h2⟩
        · refine ⟨Or.inr h, ?_⟩
          intro hf
          exact hnotin (h ▸ hinv.failedReg c hf)
      · rintro ⟨h1 | h1, h2⟩
        · exact Or.inl ⟨h1, h2⟩
        · exact Or.inr h1
    · intro c hc
      exact List.mem_append_left _ (hinv.failedReg c hc)
    · intro c
      rw [closeCount_append, hinv.closes c]
      simp [closeCount, List.count_cons]
  | send wr seed data callerConnId =>
    simp only [registered, failedReads, List.append_nil]
    simp only [step] at hstep
    cases hs : w.sb.send wr seed data callerConnId with
    | error p => rw [hs] at hstep; cases hstep
    | ok r =>
      rw [hs] at hstep
      simp only [Option.some.injEq] at hstep
      subst hstep
      obtain ⟨h1, h2, h3⟩ := send_frame _ _ _ _ _ _ hs
      exact HistInv_frame w _ regs fs hinv h1 h2 rfl
        (fun c => by rw [closeCount_append, h3]; rfl)
  | pickRandConn seed =>
    simp only [registered, failedReads, List.append_nil]
    simp only [step, Option.some.injEq] at hstep
    subst hstep
    exact hinv
  | close terminalMsg =>
    simp only [registered, failedReads, List.append_nil]
    simp only [step, Option.some.injEq] at hstep
    subst hstep
    exact HistInv_frame w _ regs fs hinv (close_conns _ _) (close_nextConnId _ _) rfl
      (fun c => by rw [closeCount_append, closeCount_close]; rfl)
  | closeAll => simp [noCloseAll] at hno
  | deplex connId conn buf n err recvErr =>
    simp only [step] at hstep
    split at hstep
    · rename_i hmem
      cases err with
      | none =>
        simp only [registered, failedReads, List.append_nil]
        by_cases hn : n ≤ buf.length
        · rw [deplex_ok _ _ _ _ _ _ hn] at hstep
          simp only [Option.some.injEq] at hstep
          subst hstep
          exact HistInv_frame w _ regs fs hinv rfl rfl rfl
            (fun c => by rw [closeCount_append]; simp [closeCount, List.count_cons])
        · simp [switchboard.deplex, hn] at hstep
      | some e =>
        simp only [registered, failedReads, List.append_nil]
        rw [deplex_err] at hstep
        simp only [Option.some.injEq] at hstep
        subst hstep
        have hrun : conn ∈ w.loops.map Prod.snd := List.mem_map_of_mem Prod.snd hmem
        have hreg := (hinv.loopsIff conn).mp hrun
        refine ⟨?_, ?_, ?_, ?_, ?_, ?_, ?_⟩
        · simp only [close_conns]; exact hinv.snds
        · simp only [close_conns]; exact hinv.keys
        · simp only [close_nextConnId]; exact hinv.next
        · exact (List.Sublist.map Prod.snd (List.erase_sublist _ _)).nodup hinv.loopsNodup
        · intro c
          simp only [Bool.false_eq_true, if_false]
          rw [mem_erase_snd w.loops connId conn c hinv.loopsNodup hmem, hinv.loopsIff c]
          simp only [List.mem_append, List.mem_singleton, not_or]
          tauto
        · intro c hc
          rcases List.mem_append.mp hc with h | h
          · exact hinv.failedReg c h
          · rw [List.mem_singleton] at h
            rw [h]; exact hreg.1
        · intro c
          have hcl := closeCount_close w.sb "a connection has dropped unexpectedly" c
          simp only [closeCount] at hcl
          have hold := hinv.closes c
          simp only [closeCount] at hold
          simp only [closeCount, List.count_append, List.count_cons, List.count_nil, hcl,
            hold, List.mem_append, List.mem_singleton]
          by_cases hcc : c = conn
          · subst hcc
            simp [hreg.2]
          · have hne : ¬ conn = c := fun h => hcc h.symm
            simp [hcc, hne]
    · cases hstep

theorem run_HistInv (ops : List Op) : ∀ (w w1 : World) (regs fs : List Conn),
    HistInv w regs fs → run w ops = some w1 → noCloseAll ops = true →
    (regs ++ registered ops).Nodup → (regs ++ registered ops).length ≤ uint32Size →
    HistInv w1 (regs ++ registered ops) (fs ++ failedReads ops) := by
  induction ops with
  | nil =>
    intro w w1 regs fs hinv hrun _ _ _
    simp only [run, Option.some.injEq] at hrun
    subst hrun
    simpa [registered, failedReads] using hinv
  | cons op ops ih =>
    intro w w1 regs fs hinv hrun hno hd hlen
    obtain ⟨hno1, hno2⟩ := noCloseAll_cons op ops hno
    rw [registered_cons, ← List.append_assoc] at hd hlen
    simp only [run] at hrun
    cases hs : step w op with
    | none => rw [hs] at hrun; cases hrun
    | some w2 =>
      rw [hs] at hrun
      have hd1 : (regs ++ registered [op]).Nodup := (List.nodup_append.mp hd).1
      have hlen1 : (regs ++ registered [op]).length ≤ uint32Size := by
        rw [List.length_append] at hlen
        omega
      have h2 := step_HistInv w w2 op regs fs hinv hs hno1 hd1 hlen1
      have h3 := ih w2 w1 _ _ h2 hrun hno2 hd hlen
      rw [registered_cons, failedReads_cons, ← List.append_assoc, ← List.append_assoc]
      exact h3

theorem pickRandConnAt_shrunk (broken : Nat) (counted enumerated : List (ConnId × Conn))
    (seed : Nat) (hb : broken ≠ 1) (hne : counted ≠ [])
    (hshort : enumerated.length ≤ randIntn seed counted.length) :
    pickRandConnAt broken counted enumerated seed = (0, none, none) := by
  rw [pickRandConnAt_active broken counted enumerated seed hb hne,
    pickRange_miss _ enumerated 0 none 0 (by omega)]

theorem send_callerConnId (sb : switchboard) (wr : Nat × Option GoError) (seed : Nat)
    (data : List Nat) (callerConnId : ConnId) (r : sendResult)
    (h : sb.send wr seed data callerConnId = Except.ok r) :
    r.callerConnId = callerConnId := by
  unfold switchboard.send at h
  simp only at h
  repeat' split at h
  all_goals first
    | (simp only [Except.ok.injEq] at h; subst h; rfl)
    | cases h

/-! ## The claims -/

/-- C1: once `broken` is 1, every state reached by any history of `addConn`,
`send`, `pickRandConn`, `close`, `closeAll` and `deplex` iterations still has
`broken` equal to 1, and there `send` returns `(0, errBrokenSwitchboard)` for
every write outcome, draw, payload and identifier; its only call is
`txWait`, so it writes to no connection and records no tx bytes, and it
leaves the switchboard as it was. -/
theorem broken_flag_is_terminal (w w1 : World) (ops : List Op)
    (hb : w.sb.broken = 1) (hrun : run w ops = some w1) :
    w1.sb.broken = 1 ∧
    ∀ (wr : Nat × Option GoError) (seed : Nat) (data : List Nat) (callerConnId : ConnId),
      w1.sb.send wr seed data callerConnId =
        Except.ok ⟨w1.sb, 0, some GoError.errBrokenSwitchboard, callerConnId,
          connIdTarget.callerVar, [Event.txWait data.length]⟩ ∧
      writesOf [Event.txWait data.length] = [] ∧
      txRecorded [Event.txWait data.length] = [] := by
  have h1 := run_broken ops w w1 hb hrun
  refine ⟨h1, fun wr seed data callerConnId => ⟨?_, rfl, rfl⟩⟩
  exact send_of_broken w1.sb wr seed data callerConnId (Or.inl h1)

/-- A history from a broken switchboard that goes through each of the six
operations. -/
theorem broken_flag_is_terminal_witness :
    brokenWorld.sb.broken = 1 ∧ run brokenWorld sixOps = some brokenWorldAfter ∧
    (brokenWorldAfter.sb.broken = 1 ∧
      ∀ (wr : Nat × Option GoError) (seed : Nat) (data : List Nat) (callerConnId : ConnId),
        brokenWorldAfter.sb.send wr seed data callerConnId =
          Except.ok ⟨brokenWorldAfter.sb, 0, some GoError.errBrokenSwitchboard, callerConnId,
            connIdTarget.callerVar, [Event.txWait data.length]⟩ ∧
        writesOf [Event.txWait data.length] = [] ∧
        txRecorded [Event.txWait data.length] = []) :=
  ⟨by decide, by decide,
    broken_flag_is_terminal brokenWorld brokenWorldAfter sixOps (by decide) (by decide)⟩

/-- C2: under FIXED_CONN_MAPPING with the broken flag clear, for every
payload, write outcome and draw, and every identifier that is a key of the
registry, `send` returns normally, the connection stored under the
identifier receives the one and only `Write`, with the whole payload, and
the identifier of the caller has its old value (the parameter still points
at the variable of the caller). -/
theorem send_fixed_mapping_valid_id (sb : switchboard) (wr : Nat × Option GoError)
    (seed : Nat) (data : List Nat) (callerConnId : ConnId)
    (hs : sb.strategy = switchboardStrategy.FIXED_CONN_MAPPING)
    (hb : sb.broken = 0)
    (hk : callerConnId ∈ sb.conns.map Prod.fst) :
    ∃ conn r, Load sb.conns callerConnId = (some conn, true) ∧
      (callerConnId, conn) ∈ sb.conns ∧
      sb.send wr seed data callerConnId = Except.ok r ∧
      writesOf r.events = [(conn, data)] ∧
      r.callerConnId = callerConnId ∧ r.connId = connIdTarget.callerVar := by
  obtain ⟨conn, hl, hm⟩ := Load_of_key sb.conns callerConnId hk
  have hb1 : sb.broken ≠ 1 := by rw [hb]; decide
  have hne : sb.conns ≠ [] := by
    intro h0; rw [h0] at hm; cases hm
  obtain ⟨n, _ | e⟩ := wr
  · have hsend := send_fixed_key sb (n, none) seed data callerConnId conn hs hb1 hne hl
    rw [writeAndRegUsage_success] at hsend
    exact ⟨conn, _, hl, hm, hsend, rfl, rfl, rfl⟩
  · have hsend := send_fixed_key sb (n, some e) seed data callerConnId conn hs hb1 hne hl
    rw [writeAndRegUsage_fail] at hsend
    refine ⟨conn, _, hl, hm, hsend, ?_, rfl, rfl⟩
    simp [writesOf, writesOf_close]

/-- A send pinned to identifier 1 of three connections, whose write fails. -/
theorem send_fixed_mapping_valid_id_witness :
    fixedSb.strategy = switchboardStrategy.FIXED_CONN_MAPPING ∧ fixedSb.broken = 0 ∧
    1 ∈ fixedSb.conns.map Prod.fst ∧
    ∃ conn r, Load fixedSb.conns 1 = (some conn, true) ∧ (1, conn) ∈ fixedSb.conns ∧
      fixedSb.send (2, some (GoError.other "EPIPE")) 4 [7, 8, 9] 1 = Except.ok r ∧
      writesOf r.events = [(conn, [7, 8, 9])] ∧
      r.callerConnId = 1 ∧ r.connId = connIdTarget.callerVar :=
  ⟨by decide, by decide, by decide,
    send_fixed_mapping_valid_id fixedSb (2, some (GoError.other "EPIPE")) 4 [7, 8, 9] 1
      (by decide) (by decide) (by decide)⟩

/-- C3: under FIXED_CONN_MAPPING, broken flag clear, three connections
registered, `send` with the identifier 7, which is not a key, does not return:
the type assertion on the nil result of `Load` panics before the fallback
to `pickRandConn` is reached. -/
theorem send_fixed_mapping_stale_id_panics :
    fixedSb.send (3, none) 0 [7, 8, 9] 7 =
      Except.error "interface conversion: interface is nil, not net.Conn" := rfl

/-- C4 as stated fails when the session is closed before the first call:
`passiveClose` is never invoked and the terminal message is not the reason
of the first call. -/
theorem close_first_call_counterexample :
    closedSessionSb.session.IsClosed = true ∧
    (closeSeq closedSessionSb ["failed to write to remote EPIPE",
        "a connection has dropped unexpectedly"]).2.count Event.passiveClose = 0 ∧
    (closeSeq closedSessionSb ["failed to write to remote EPIPE",
        "a connection has dropped unexpectedly"]).1.session.terminalMsg ≠
      "failed to write to remote EPIPE" := by
  decide

/-- C4, amended: for every sequence of calls of `close`, with any reasons,
made on a switchboard whose session is not closed before the first call:
the first call sets the broken flag, records its reason as terminal message
and invokes `passiveClose`; over the whole sequence `SetTerminalMsg` and
`passiveClose` are called exactly once each, the terminal message at the end
is the reason of the first call, and the calls after the first change
nothing at all. -/
theorem close_sequence_once (sb : switchboard) (first : String) (rest : List String)
    (hopen : sb.session.IsClosed = false) :
    (sb.close first).1.broken = 1 ∧
    (closeSeq sb (first :: rest)).1.broken = 1 ∧
    (closeSeq sb (first :: rest)).2 = [Event.SetTerminalMsg first, Event.passiveClose] ∧
    (closeSeq sb (first :: rest)).2.count Event.passiveClose = 1 ∧
    (closeSeq sb (first :: rest)).1.session.terminalMsg = first ∧
    (closeSeq sb (first :: rest)).1.session.IsClosed = true ∧
    closeSeq (sb.close first).1 rest = ((sb.close first).1, []) := by
  have h1 := close_of_open sb first hopen
  have h2 : closeSeq (sb.close first).1 rest = ((sb.close first).1, []) := by
    apply closeSeq_of_closed
    · rw [h1]; rfl
    · exact close_broken sb first
  have h3 : closeSeq sb (first :: rest) =
      ((sb.close first).1, [Event.SetTerminalMsg first, Event.passiveClose]) := by
    simp only [closeSeq, h2, List.append_nil]
    rw [h1]
  refine ⟨close_broken sb first, ?_, ?_, ?_, ?_, ?_, h2⟩
  · rw [h3]; exact close_broken sb first
  · rw [h3]
  · rw [h3]; simp [List.count_cons]
  · rw [h3, h1]
  · rw [h3, h1]; rfl

/-- A write failure followed by two read failures on an open session. -/
theorem close_sequence_once_witness :
    uniformSb.session.IsClosed = false ∧
    ((uniformSb.close "failed to write to remote EPIPE").1.broken = 1 ∧
    (closeSeq uniformSb ("failed to write to remote EPIPE" ::
      ["a connection has dropped unexpectedly",
        "a connection has dropped unexpectedly"])).1.broken = 1 ∧
    (closeSeq uniformSb ("failed to write to remote EPIPE" ::
      ["a connection has dropped unexpectedly",
        "a connection has dropped unexpectedly"])).2 =
      [Event.SetTerminalMsg "failed to write to remote EPIPE", Event.passiveClose] ∧
    (closeSeq uniformSb ("failed to write to remote EPIPE" ::
      ["a connection has dropped unexpectedly",
        "a connection has dropped unexpectedly"])).2.count Event.passiveClose = 1 ∧
    (closeSeq uniformSb ("failed to write to remote EPIPE" ::
      ["a connection has dropped unexpectedly",
        "a connection has dropped unexpectedly"])).1.session.terminalMsg =
      "failed to write to remote EPIPE" ∧
    (closeSeq uniformSb ("failed to write to remote EPIPE" ::
      ["a connection has dropped unexpectedly",
        "a connection has dropped unexpectedly"])).1.session.IsClosed = true ∧
    closeSeq (uniformSb.close "failed to write to remote EPIPE").1
      ["a connection has dropped unexpectedly", "a connection has dropped unexpectedly"] =
      ((uniformSb.close "failed to write to remote EPIPE").1, [])) :=
  ⟨by decide, close_sequence_once uniformSb "failed to write to remote EPIPE"
    ["a connection has dropped unexpectedly", "a connection has dropped unexpectedly"]
    (by decide)⟩

/-- C5 as stated fails on the text of the terminal message: the source
joins "failed to write to remote " and the text of the error, with no colon
between them. -/
theorem send_write_failure_message_counterexample :
    uniformSb.broken ≠ 1 ∧ uniformSb.conns ≠ [] ∧ uniformSb.session.IsClosed = false ∧
    ∃ r, uniformSb.send (2, some (GoError.other "EPIPE")) 4 [7, 8, 9] 0 = Except.ok r ∧
      r.sb.session.terminalMsg ≠
        "failed to write to remote: " ++ (GoError.other "EPIPE").Error :=
  ⟨by decide, by decide, by decide, _, rfl, by decide⟩

/-- C5, amended: when `send` passes the broken/empty check and the write on
the chosen connection (under UNIFORM_SPREAD the one drawn, under
FIXED_CONN_MAPPING the one stored under the identifier) fails with cause `e`
after `n` bytes, `send` returns `(n, e)`, the broken flag is set, nothing is
handed to `AddTx`, exactly one `Write` was made, and, if the session was not
closed, its terminal message is "failed to write to remote " followed by the
text of `e`. -/
theorem send_write_failure (sb : switchboard) (n : Nat) (e : GoError) (seed : Nat)
    (data : List Nat) (callerConnId : ConnId)
    (hb : sb.broken ≠ 1) (hne : sb.conns ≠ [])
    (hsel : sb.strategy = switchboardStrategy.UNIFORM_SPREAD ∨
      callerConnId ∈ sb.conns.map Prod.fst) :
    ∃ r, sb.send (n, some e) seed data callerConnId = Except.ok r ∧
      r.sb.broken = 1 ∧ r.n = n ∧ r.err = some e ∧
      txRecorded r.events = [] ∧ (writesOf r.events).length = 1 ∧
      (sb.session.IsClosed = false →
        r.sb.session.terminalMsg = "failed to write to remote " ++ e.Error) := by
  have key : ∀ (conn : Conn) (r : sendResult),
      r.sb = (sb.close ("failed to write to remote " ++ e.Error)).1 → r.n = n →
      r.err = some e →
      r.events = [Event.txWait data.length] ++ Event.Write conn data ::
        (sb.close ("failed to write to remote " ++ e.Error)).2 →
      r.sb.broken = 1 ∧ r.n = n ∧ r.err = some e ∧
      txRecorded r.events = [] ∧ (writesOf r.events).length = 1 ∧
      (sb.session.IsClosed = false →
        r.sb.session.terminalMsg = "failed to write to remote " ++ e.Error) := by
    intro conn r h1 h2 h3 h4
    refine ⟨?_, h2, h3, ?_, ?_, ?_⟩
    · rw [h1]; exact close_broken _ _
    · rw [h4]; simp [txRecorded, txRecorded_close]
    · rw [h4]; simp [writesOf, writesOf_close]
    · intro hopen
      rw [h1, close_of_open sb _ hopen]
  cases hst : sb.strategy with
  | UNIFORM_SPREAD =>
    obtain ⟨en, _, _, hp⟩ := pickRandConn_active sb seed hb hne
    have hsend := send_uniform sb (n, some e) seed data callerConnId en hst hb hne hp
    rw [writeAndRegUsage_fail] at hsend
    exact ⟨_, hsend, key en.2 _ rfl rfl rfl rfl⟩
  | FIXED_CONN_MAPPING =>
    have hk : callerConnId ∈ sb.conns.map Prod.fst := by
      rcases hsel with h | h
      · rw [hst] at h; cases h
      · exact h
    obtain ⟨conn, hl, _⟩ := Load_of_key sb.conns callerConnId hk
    have hsend := send_fixed_key sb (n, some e) seed data callerConnId conn hst hb hne hl
    rw [writeAndRegUsage_fail] at hsend
    exact ⟨_, hsend, key conn _ rfl rfl rfl rfl⟩

/-- A failed write under UNIFORM_SPREAD on an open session. -/
theorem send_write_failure_witness :
    uniformSb.broken ≠ 1 ∧ uniformSb.conns ≠ [] ∧
    (uniformSb.strategy = switchboardStrategy.UNIFORM_SPREAD ∨
      0 ∈ uniformSb.conns.map Prod.fst) ∧
    ∃ r, uniformSb.send (2, some (GoError.other "EPIPE")) 4 [7, 8, 9] 0 = Except.ok r ∧
      r.sb.broken = 1 ∧ r.n = 2 ∧ r.err = some (GoError.other "EPIPE") ∧
      txRecorded r.events = [] ∧ (writesOf r.events).length = 1 ∧
      (uniformSb.session.IsClosed = false →
        r.sb.session.terminalMsg =
          "failed to write to remote " ++ (GoError.other "EPIPE").Error) :=
  ⟨by decide, by decide, by decide,
    send_write_failure uniformSb 2 (GoError.other "EPIPE") 4 [7, 8, 9] 0
      (by decide) (by decide) (by decide)⟩

/-- C6 as stated fails on "exactly once": after a read failure the loop of
`deplex` has closed its connection and the entry is still in the registry, so
`closeAll` closes connection 10 a second time. -/
theorem closeAll_closes_twice_counterexample :
    run (World.fresh ⟨false, ""⟩ switchboardStrategy.UNIFORM_SPREAD) dropHistory =
      some dropWorld ∧
    ∃ w1, step dropWorld Op.closeAll = some w1 ∧ 10 ∈ registered dropHistory ∧
      closeCount 10 w1.trace = 2 :=
  ⟨by decide, _, rfl, by decide, by decide⟩

/-- C6, amended: for every history of registrations of pairwise distinct
connections (at most `2 ^ 32` of them), sends, picks, calls of `close` and
`deplex` iterations that runs to its end from a fresh switchboard, `closeAll`
returns, `connsCount` is 0 afterwards, and over the whole history `Close`
was called on every registered connection once by `closeAll`, and once more
by its own `deplex` loop if the read of that connection had failed: twice
then, once otherwise. -/
theorem closeAll_after_history (sesh : Session) (strategy : switchboardStrategy)
    (ops : List Op) (w : World)
    (hrun : run (World.fresh sesh strategy) ops = some w)
    (hno : noCloseAll ops = true)
    (hd : (registered ops).Nodup)
    (hlen : (registered ops).length ≤ uint32Size) :
    ∃ w1, step w Op.closeAll = some w1 ∧ w1.sb.connsCount = 0 ∧
      ∀ c, c ∈ registered ops →
        closeCount c w1.trace = if c ∈ failedReads ops then 2 else 1 := by
  have hinv := run_HistInv ops (World.fresh sesh strategy) w [] [] (HistInv_fresh sesh strategy)
    hrun hno (by simpa using hd) (by simpa using hlen)
  simp only [List.nil_append] at hinv
  refine ⟨_, rfl, ?_, ?_⟩
  · rw [connsCount_eq_length]
    show (w.sb.closeAll).1.conns.length = 0
    rw [closeAll_conns]
    rfl
  · intro c hc
    show closeCount c (w.trace ++ (w.sb.closeAll).2) = _
    rw [closeCount_append, closeCount_closeAll, hinv.snds, hinv.closes c,
      List.count_eq_one_of_mem hd hc]
    split <;> rfl

/-- The history `dropHistory`: connection 10 is closed twice, 11 once. -/
theorem closeAll_after_history_witness :
    run (World.fresh ⟨false, ""⟩ switchboardStrategy.UNIFORM_SPREAD) dropHistory =
      some dropWorld ∧
    noCloseAll dropHistory = true ∧ (registered dropHistory).Nodup ∧
    (registered dropHistory).length ≤ uint32Size ∧
    ∃ w1, step dropWorld Op.closeAll = some w1 ∧ w1.sb.connsCount = 0 ∧
      ∀ c, c ∈ registered dropHistory →
        closeCount c w1.trace = if c ∈ failedReads dropHistory then 2 else 1 :=
  ⟨by decide, by decide, by decide, by decide,
    closeAll_after_history ⟨false, ""⟩ switchboardStrategy.UNIFORM_SPREAD dropHistory
      dropWorld (by decide) (by decide) (by decide) (by decide)⟩

/-- C7: one iteration of the loop of `deplex`, for a read into the 20480-byte
buffer that reports `n` bytes (within the buffer when it succeeds).  The
iteration returns (ends the loop) exactly when `UnitRead` gave an error.  In
that case the calls are `rxWait n`, `AddRx n`, `Close` on its own connection,
then those of `close "a connection has dropped unexpectedly"`; the broken
flag is set, the registry is untouched and `recvDataFromRemote` is not
called.  Otherwise the calls are `rxWait n`, `AddRx n` and
`recvDataFromRemote buf[:n]`, and whatever `recvDataFromRemote` answers the
switchboard is unchanged and the loop continues.  In both cases `rxWait` and
`AddRx` are called once each, with `n`. -/
theorem deplex_iteration (sb : switchboard) (connId : ConnId) (conn : Conn) (buf : List Nat)
    (n : Nat) (err recvErr : Option GoError)
    (hbuf : buf.length = deplexBufSize) (hn : err = none → n ≤ deplexBufSize) :
    ∃ r, sb.deplex connId conn buf n err recvErr = Except.ok r ∧
      (r.continues = false ↔ err ≠ none) ∧
      (err ≠ none →
        r.events = [Event.rxWait n, Event.AddRx n, Event.Close conn] ++
          (sb.close "a connection has dropped unexpectedly").2 ∧
        r.sb = (sb.close "a connection has dropped unexpectedly").1 ∧
        r.sb.broken = 1 ∧ r.sb.conns = sb.conns ∧
        (∀ c, Event.Close c ∈ r.events → c = conn) ∧
        (∀ d, Event.recvDataFromRemote d ∉ r.events)) ∧
      (err = none →
        r.events = [Event.rxWait n, Event.AddRx n, Event.recvDataFromRemote (buf.take n)] ∧
        r.sb = sb ∧ r.continues = true) ∧
      (∀ k, r.events.count (Event.rxWait k) = (if n = k then 1 else 0) ∧
        r.events.count (Event.AddRx k) = (if n = k then 1 else 0)) := by
  cases err with
  | some e =>
    refine ⟨_, deplex_err sb connId conn buf n e recvErr, by simp, ?_, by simp, ?_⟩
    · intro _
      refine ⟨rfl, rfl, close_broken _ _, close_conns _ _, ?_, ?_⟩
      · intro c hc
        rcases close_events_cases sb "a connection has dropped unexpectedly" with h | h <;>
          simp [h] at hc <;> exact hc
      · intro d hd
        rcases close_events_cases sb "a connection has dropped unexpectedly" with h | h <;>
          simp [h] at hd
    · intro k
      rcases close_events_cases sb "a connection has dropped unexpectedly" with h | h <;>
        simp [h, List.count_cons]
  | none =>
    have hle : n ≤ buf.length := by rw [hbuf]; exact hn rfl
    refine ⟨_, deplex_ok sb connId conn buf n recvErr hle, by simp, by simp, ?_, ?_⟩
    · intro _; exact ⟨rfl, rfl, rfl⟩
    · intro k; simp [List.count_cons]

/-- A successful read of three bytes whose forwarding fails. -/
theorem deplex_iteration_witness :
    (List.replicate deplexBufSize 0).length = deplexBufSize ∧
    ((none : Option GoError) = none → 3 ≤ deplexBufSize) ∧
    ∃ r, uniformSb.deplex 1 11 (List.replicate deplexBufSize 0) 3 none
        (some (GoError.other "bad frame")) = Except.ok r ∧
      (r.continues = false ↔ (none : Option GoError) ≠ none) ∧
      ((none : Option GoError) ≠ none →
        r.events = [Event.rxWait 3, Event.AddRx 3, Event.Close 11] ++
          (uniformSb.close "a connection has dropped unexpectedly").2 ∧
        r.sb = (uniformSb.close "a connection has dropped unexpectedly").1 ∧
        r.sb.broken = 1 ∧ r.sb.conns = uniformSb.conns ∧
        (∀ c, Event.Close c ∈ r.events → c = 11) ∧
        (∀ d, Event.recvDataFromRemote d ∉ r.events)) ∧
      ((none : Option GoError) = none →
        r.events = [Event.rxWait 3, Event.AddRx 3,
          Event.recvDataFromRemote ((List.replicate deplexBufSize 0).take 3)] ∧
        r.sb = uniformSb ∧ r.continues = true) ∧
      (∀ k, r.events.count (Event.rxWait k) = (if 3 = k then 1 else 0) ∧
        r.events.count (Event.AddRx k) = (if 3 = k then 1 else 0)) :=
  ⟨List.length_replicate _ _, fun _ => by decide,
    deplex_iteration uniformSb 1 11 (List.replicate deplexBufSize 0) 3 none
      (some (GoError.other "bad frame")) (List.length_replicate _ _) (fun _ => by decide)⟩

/-- C8 as stated fails once the `uint32` counter wraps: registering
`2 ^ 32 + 1` connections on a fresh switchboard hands out the identifier 0
twice. -/
theorem addConn_ids_repeat_counterexample :
    ¬ (addConns (makeSwitchboard ⟨false, ""⟩ ⟨switchboardStrategy.UNIFORM_SPREAD⟩)
        (List.range 4294967297)).2.Nodup := by
  intro hnd
  rw [addConns_ids _ _ (by decide)] at hnd
  have h := List.inj_on_of_nodup_map hnd
    (List.mem_range.mpr (by simp : 0 < (List.range 4294967297).length))
    (List.mem_range.mpr (by simp : 4294967296 < (List.range 4294967297).length))
    (by simp [makeSwitchboard, uint32Size])
  exact absurd h (by decide)

/-- C8, amended: for every `N` up to `2 ^ 32`, `N` calls of `addConn` on a
freshly made switchboard hand out the identifiers `0, 1, ..., N - 1`, which
are pairwise distinct; the registry holds each connection under its own
identifier (no `Store` replaced an entry), and `connsCount` is `N`. -/
theorem addConn_ids_distinct (sesh : Session) (config : switchboardConfig)
    (cs : List Conn) (hN : cs.length ≤ uint32Size) :
    (addConns (makeSwitchboard sesh config) cs).2 = List.range cs.length ∧
    (addConns (makeSwitchboard sesh config) cs).2.Nodup ∧
    (addConns (makeSwitchboard sesh config) cs).1.conns = (List.range cs.length).zip cs ∧
    (addConns (makeSwitchboard sesh config) cs).1.connsCount = cs.length := by
  obtain ⟨h1, h2, _⟩ := addConns_no_wrap cs (makeSwitchboard sesh config) 0 rfl rfl
    (by omega)
  rw [← List.range_eq_range'] at h1 h2
  have h2b : (addConns (makeSwitchboard sesh config) cs).1.conns =
      (List.range cs.length).zip cs := by
    rw [h2]; rfl
  refine ⟨h1, ?_, h2b, ?_⟩
  · rw [h1]; exact List.nodup_range _
  · rw [connsCount_eq_length, h2b]
    simp

/-- Three registrations on a fresh switchboard. -/
theorem addConn_ids_distinct_witness :
    [10, 11, 12].length ≤ uint32Size ∧
    (addConns (makeSwitchboard ⟨false, ""⟩ ⟨switchboardStrategy.FIXED_CONN_MAPPING⟩)
      [10, 11, 12]).2 = List.range [10, 11, 12].length ∧
    (addConns (makeSwitchboard ⟨false, ""⟩ ⟨switchboardStrategy.FIXED_CONN_MAPPING⟩)
      [10, 11, 12]).2.Nodup ∧
    (addConns (makeSwitchboard ⟨false, ""⟩ ⟨switchboardStrategy.FIXED_CONN_MAPPING⟩)
      [10, 11, 12]).1.conns = (List.range [10, 11, 12].length).zip [10, 11, 12] ∧
    (addConns (makeSwitchboard ⟨false, ""⟩ ⟨switchboardStrategy.FIXED_CONN_MAPPING⟩)
      [10, 11, 12]).1.connsCount = [10, 11, 12].length :=
  ⟨by decide, addConn_ids_distinct ⟨false, ""⟩ ⟨switchboardStrategy.FIXED_CONN_MAPPING⟩
    [10, 11, 12] (by decide)⟩

/-- C9: with the registry unchanged during the call (keys pairwise distinct,
as in any map), `pickRandConn` returns `errBrokenSwitchboard` exactly when
the broken flag is set or the registry is empty.  Otherwise, with `K`
entries: the error is nil; the result depends on the seed only through the
draw `rand.Intn(K)`, which is below `K`; for a draw `r` below `K` the result
is the identifier and handle of the entry at position `r`, an entry of the
registry; two different draws give different results; and every entry is
the result of exactly one draw below `K`. -/
theorem pickRandConn_uniform (sb : switchboard) (hnd : (sb.conns.map Prod.fst).Nodup) :
    (∀ seed, (sb.pickRandConn seed).2.2 = some GoError.errBrokenSwitchboard ↔
      (sb.broken = 1 ∨ sb.conns = [])) ∧
    (sb.broken ≠ 1 → sb.conns ≠ [] →
      (∀ seed, (sb.pickRandConn seed).2.2 = none ∧
        randIntn seed sb.connsCount < sb.connsCount ∧
        sb.pickRandConn seed = sb.pickRandConn (randIntn seed sb.connsCount)) ∧
      (∀ r, r < sb.connsCount → ∃ e, sb.conns[r]? = some e ∧ e ∈ sb.conns ∧
        sb.pickRandConn r = (e.1, some e.2, none)) ∧
      (∀ r1 r2, r1 < sb.connsCount → r2 < sb.connsCount → r1 ≠ r2 →
        sb.pickRandConn r1 ≠ sb.pickRandConn r2) ∧
      (∀ e ∈ sb.conns, ∃! r, r < sb.connsCount ∧
        sb.pickRandConn r = (e.1, some e.2, none))) := by
  have hat : sb.broken ≠ 1 → ∀ r, r < sb.connsCount → ∃ e, sb.conns[r]? = some e ∧
      e ∈ sb.conns ∧ sb.pickRandConn r = (e.1, some e.2, none) := by
    intro hb r hr
    rw [connsCount_eq_length] at hr
    have hget : sb.conns[r]? = some sb.conns[r] := List.getElem?_eq_getElem hr
    exact ⟨sb.conns[r], hget, List.getElem_mem _, pickRandConn_at sb r _ hb hget⟩
  have hinj : sb.broken ≠ 1 → ∀ r1 r2, r1 < sb.connsCount → r2 < sb.connsCount →
      sb.pickRandConn r1 = sb.pickRandConn r2 → r1 = r2 := by
    intro hb r1 r2 h1 h2 heq
    obtain ⟨e1, hg1, _, hp1⟩ := hat hb r1 h1
    obtain ⟨e2, hg2, _, hp2⟩ := hat hb r2 h2
    rw [hp1, hp2] at heq
    have hfst : e1.1 = e2.1 := (Prod.mk.inj heq).1
    rw [connsCount_eq_length] at h1 h2
    have hm1 : (sb.conns.map Prod.fst)[r1]? = some e1.1 := by
      rw [List.getElem?_map, hg1]; rfl
    have hm2 : (sb.conns.map Prod.fst)[r2]? = some e1.1 := by
      rw [List.getElem?_map, hg2, hfst]; rfl
    obtain ⟨k1, hk1⟩ := List.getElem?_eq_some.mp hm1
    obtain ⟨k2, hk2⟩ := List.getElem?_eq_some.mp hm2
    exact (hnd.getElem_inj_iff).mp (hk1.trans hk2.symm)
  refine ⟨?_, ?_⟩
  · intro seed
    constructor
    · intro h
      by_contra hcon
      simp only [not_or] at hcon
      obtain ⟨e, _, _, hp⟩ := pickRandConn_active sb seed hcon.1 hcon.2
      rw [hp] at h
      cases h
    · intro h
      unfold switchboard.pickRandConn
      rw [pickRandConnAt_inactive sb.broken sb.conns sb.conns seed h]
  · intro hb hne
    have hlen : sb.conns.length ≠ 0 := by
      intro h; exact hne (List.length_eq_zero.mp h)
    refine ⟨?_, hat hb, ?_, ?_⟩
    · intro seed
      obtain ⟨e, _, _, hp⟩ := pickRandConn_active sb seed hb hne
      refine ⟨by rw [hp], ?_, pickRandConn_seed sb seed hb hne⟩
      rw [connsCount_eq_length]
      exact randIntn_lt seed _ hlen
    · intro r1 r2 h1 h2 hne12 heq
      exact hne12 (hinj hb r1 r2 h1 h2 heq)
    · intro e he
      obtain ⟨r, hr, hre⟩ := List.getElem_of_mem he
      have hget : sb.conns[r]? = some e := by
        rw [List.getElem?_eq_getElem hr, hre]
      have hrc : r < sb.connsCount := by rw [connsCount_eq_length]; exact hr
      refine ⟨r, ⟨hrc, pickRandConn_at sb r e hb hget⟩, ?_⟩
      intro r2 ⟨h2, hp2⟩
      exact hinj hb r2 r h2 hrc (hp2.trans (pickRandConn_at sb r e hb hget).symm)

/-- Three connections, draws 0, 1 and 2. -/
theorem pickRandConn_uniform_witness :
    (uniformSb.conns.map Prod.fst).Nodup ∧
    (∀ seed, (uniformSb.pickRandConn seed).2.2 = some GoError.errBrokenSwitchboard ↔
      (uniformSb.broken = 1 ∨ uniformSb.conns = [])) ∧
    (uniformSb.broken ≠ 1 → uniformSb.conns ≠ [] →
      (∀ seed, (uniformSb.pickRandConn seed).2.2 = none ∧
        randIntn seed uniformSb.connsCount < uniformSb.connsCount ∧
        uniformSb.pickRandConn seed =
          uniformSb.pickRandConn (randIntn seed uniformSb.connsCount)) ∧
      (∀ r, r < uniformSb.connsCount → ∃ e, uniformSb.conns[r]? = some e ∧
        e ∈ uniformSb.conns ∧ uniformSb.pickRandConn r = (e.1, some e.2, none)) ∧
      (∀ r1 r2, r1 < uniformSb.connsCount → r2 < uniformSb.connsCount → r1 ≠ r2 →
        uniformSb.pickRandConn r1 ≠ uniformSb.pickRandConn r2) ∧
      (∀ e ∈ uniformSb.conns, ∃! r, r < uniformSb.connsCount ∧
        uniformSb.pickRandConn r = (e.1, some e.2, none))) :=
  ⟨by decide, pickRandConn_uniform uniformSb (by decide)⟩

/-- C10: the counting pass sees two entries, the draw is 1, and the
enumeration pass sees only the entry `(4, 10)`: the result is identifier 0
with the nil handle and a nil error, not the last entry visited. -/
theorem pickRandConn_shrunk_returns_nil :
    pickRandConnAt 0 [(4, 10), (5, 11)] [(4, 10)] 1 = (0, none, none) := by
  decide

end Multiplex
